import Mathlib

/-!
Verification of the resilience and observability toolkit of the HybridRAG
repository: the retry-with-backoff executor and circuit breaker
(src/utils/retry.py), the TTL cache and cached combinator
(src/utils/cache.py), and the metrics collector (src/utils/metrics.py),
against the natural-language specification.

Modelling conventions:
- Python floats (timestamps, delays, durations) are modelled as rationals.
- Python exceptions are modelled by the PyError type below; the exception
  class hierarchy relevant to this code base (Exception, ValueError,
  TypeError, AdvancedRAGException, RetryExhaustedError) is modelled by
  ExcType together with its subclass relation.
- A fallible Python call is an Except PyError value; raising is returning
  Except.error.
- Python dicts keyed by strings are modelled as association lists with
  insert-or-replace assignment.
-/

/-- The Python exception classes that matter to src/utils/retry.py and
src/exceptions.py: the root class Exception, two builtin subclasses used
by the tests, and the AdvancedRAGException / RetryExhaustedError hierarchy
from src/exceptions.py. -/
inductive ExcType where
  | base          -- Exception
  | valueError    -- ValueError
  | typeError     -- TypeError
  | advancedRAG   -- AdvancedRAGException(Exception)
  | retryExhausted -- RetryExhaustedError(AdvancedRAGException)
deriving DecidableEq, Repr

/-- The Python subclass-or-equal relation on the modelled classes:
issubclass(raised, handler). Every class is a subclass of Exception;
RetryExhaustedError is a subclass of AdvancedRAGException. -/
def ExcType.issubclass : ExcType → ExcType → Bool
  | _, .base => true
  | .valueError, .valueError => true
  | .typeError, .typeError => true
  | .advancedRAG, .advancedRAG => true
  | .retryExhausted, .advancedRAG => true
  | .retryExhausted, .retryExhausted => true
  | _, _ => false

/-- A raised Python exception value. `simple ty msg` is an instance of
class `ty` whose str() is `msg`; `retryExhausted` is a
RetryExhaustedError carrying, as in src/utils/retry.py lines 73-80, a
message and a details dict with the wrapped function name, the total
attempt count and the last error message. -/
inductive PyError where
  | simple (ty : ExcType) (msg : String)
  | retryExhausted (msg : String) (function : String) (attempts : Nat) (last_error : String)
deriving DecidableEq, Repr

/-- The class of a raised exception. -/
def PyError.ty : PyError → ExcType
  | .simple t _ => t
  | .retryExhausted _ _ _ _ => ExcType.retryExhausted

/-- str(e) for a raised exception. For a RetryExhaustedError with details,
AdvancedRAGException.__str__ appends the details dict; only the leading
message matters to the claims so the suffix is kept abstract via the
stored message. -/
def PyError.str : PyError → String
  | .simple _ m => m
  | .retryExhausted m _ _ _ => m

/-- `except (T1, T2, ...)` matching: the raised class is a subclass of one
of the classes in the handler tuple. -/
def exc_caught (exceptions : List ExcType) (raised : ExcType) : Bool :=
  exceptions.any (fun h => raised.issubclass h)

/-- The RetryExhaustedError built at src/utils/retry.py lines 73-80:
message "Failed after N attempts: str(e)" with details
function / attempts = max_retries + 1 / last_error = str(e). -/
def mkRetryExhausted (funcName : String) (max_retries : Nat) (e : PyError) : PyError :=
  PyError.retryExhausted
    ("Failed after " ++ toString (max_retries + 1) ++ " attempts: " ++ e.str)
    funcName (max_retries + 1) e.str

instance {ε α : Type} [DecidableEq ε] [DecidableEq α] : DecidableEq (Except ε α)
  | .ok a, .ok b => decidable_of_iff (a = b) (by simp)
  | .ok _, .error _ => isFalse (by simp)
  | .error _, .ok _ => isFalse (by simp)
  | .error a, .error b => decidable_of_iff (a = b) (by simp)

/-- Observable outcome of one retry-wrapped call: the returned value or
raised error, how many times the wrapped function was invoked, and the
durations passed to time.sleep in order. -/
structure RetryOutcome (α : Type) where
  result : Except PyError α
  invocations : Nat
  sleeps : List ℚ
deriving Repr, DecidableEq

/-- The loop `for attempt in range(max_retries + 1)` of
retry_with_backoff.wrapper (src/utils/retry.py lines 43-100), entered at
attempt number `attempt` with `remaining` further iterations available
(so the Python guard `attempt == max_retries` is `remaining = 0`) and
current delay `delay`. `op k` is the behaviour of the wrapped function on
its k-th invocation (indexed by attempt number). -/
def retry_wrapper_loop (exceptions : List ExcType) (funcName : String)
    (op : Nat → Except PyError α) (backoff_factor : ℚ) (max_retries : Nat) :
    Nat → Nat → ℚ → RetryOutcome α
  | attempt, remaining, delay =>
    match op attempt with
    | .ok v => { result := .ok v, invocations := 1, sleeps := [] }
    | .error e =>
      if exc_caught exceptions e.ty then
        match remaining with
        | 0 =>
          { result := .error (mkRetryExhausted funcName max_retries e),
            invocations := 1, sleeps := [] }
        | r + 1 =>
          let rest := retry_wrapper_loop exceptions funcName op backoff_factor
            max_retries (attempt + 1) r (delay * backoff_factor)
          { result := rest.result, invocations := rest.invocations + 1,
            sleeps := delay :: rest.sleeps }
      else
        { result := .error e, invocations := 1, sleeps := [] }

/-- One call of the function produced by the retry_with_backoff decorator
(src/utils/retry.py lines 14-109): run the attempt loop from attempt 0
with max_retries retries left and delay = initial_delay. -/
def retry_with_backoff (max_retries : Nat) (initial_delay backoff_factor : ℚ)
    (exceptions : List ExcType) (funcName : String)
    (op : Nat → Except PyError α) : RetryOutcome α :=
  retry_wrapper_loop exceptions funcName op backoff_factor max_retries
    0 max_retries initial_delay

/-- The three circuit breaker states of src/utils/retry.py lines 112-221. -/
inductive CBState where
  | CLOSED
  | OPEN
  | HALF_OPEN
deriving DecidableEq, Repr

/-- The CircuitBreaker object: configuration (failure_threshold, timeout,
expected_exception) and mutable fields (failure_count, last_failure_time,
state) as set by "__init__" (src/utils/retry.py lines 122-150). -/
structure CircuitBreaker where
  failure_threshold : Nat
  timeout : ℚ
  expected_exception : ExcType
  failure_count : Nat
  last_failure_time : Option ℚ
  state : CBState
deriving DecidableEq, Repr

/-- A freshly constructed breaker: failure_count = 0, no failure time,
state CLOSED. -/
def CircuitBreaker.init (ft : Nat) (tmo : ℚ) (ex : ExcType) : CircuitBreaker :=
  { failure_threshold := ft, timeout := tmo, expected_exception := ex,
    failure_count := 0, last_failure_time := none, state := CBState.CLOSED }

/-- The OPEN gate at the top of CircuitBreaker.call (src/utils/retry.py
lines 167-178): when the state is OPEN, either enough time has passed and
the breaker moves to HALF_OPEN, or the call is rejected by raising a plain
Exception with message "Circuit breaker is OPEN". When the state is OPEN
but no failure time was ever recorded, the Python expression
time.time() - self.last_failure_time raises a TypeError (float minus
NoneType); modelled accordingly. -/
def CircuitBreaker.gate (cb : CircuitBreaker) (now : ℚ) : Except PyError CircuitBreaker :=
  if cb.state = CBState.OPEN then
    match cb.last_failure_time with
    | some t =>
      if now - t ≥ cb.timeout then Except.ok { cb with state := CBState.HALF_OPEN }
      else Except.error (PyError.simple ExcType.base "Circuit breaker is OPEN")
    | none =>
      Except.error (PyError.simple ExcType.typeError
        "unsupported operand type for -: float and NoneType")
  else Except.ok cb

/-- Observable outcome of one CircuitBreaker.call: the returned value or
raised error, whether the wrapped operation was invoked, and the breaker
object after the call. -/
structure CallOutcome (α : Type) where
  result : Except PyError α
  invoked : Bool
  cb : CircuitBreaker
deriving DecidableEq, Repr

/-- CircuitBreaker.call (src/utils/retry.py lines 152-215). now is the
timestamp read by the OPEN gate; tFail is the timestamp recorded on a
counted failure; op is the result of the wrapped operation if it is
invoked. -/
def CircuitBreaker.call (cb : CircuitBreaker) (now tFail : ℚ)
    (op : Except PyError α) : CallOutcome α :=
  match cb.gate now with
  | .error e => { result := .error e, invoked := false, cb := cb }
  | .ok cb1 =>
    match op with
    | .ok v =>
      if cb1.state = CBState.HALF_OPEN then
        { result := .ok v, invoked := true,
          cb := { cb1 with failure_count := 0, state := CBState.CLOSED } }
      else
        { result := .ok v, invoked := true, cb := cb1 }
    | .error e =>
      if e.ty.issubclass cb1.expected_exception then
        let cb2 := { cb1 with failure_count := cb1.failure_count + 1, last_failure_time := some tFail }
        if cb2.failure_threshold ≤ cb2.failure_count then
          { result := .error e, invoked := true,
            cb := { cb2 with state := CBState.OPEN } }
        else
          { result := .error e, invoked := true, cb := cb2 }
      else
        { result := .error e, invoked := true, cb := cb1 }

/-- CircuitBreaker.reset (src/utils/retry.py lines 217-221). -/
def CircuitBreaker.reset (cb : CircuitBreaker) : CircuitBreaker :=
  { cb with failure_count := 0, state := CBState.CLOSED }

/-- The breaker states reachable from a fresh breaker by calls and manual
resets. -/
inductive CBReachable : CircuitBreaker → Prop
  | init (ft : Nat) (tmo : ℚ) (ex : ExcType) : CBReachable (CircuitBreaker.init ft tmo ex)
  | step (cb : CircuitBreaker) (now tFail : ℚ) (op : Except PyError Unit) :
      CBReachable cb → CBReachable (CircuitBreaker.call cb now tFail op).cb
  | reset (cb : CircuitBreaker) : CBReachable cb → CBReachable cb.reset

/-- The invariant behind C5: outside CLOSED, the failure count has reached
the threshold. -/
def CBInv (cb : CircuitBreaker) : Prop :=
  cb.state ≠ CBState.CLOSED → cb.failure_threshold ≤ cb.failure_count

/-- One entry of the cache dict (src/utils/cache.py lines 77-81):
value, expiry timestamp and creation timestamp. -/
structure CacheEntry (α : Type) where
  value : α
  expires_at : ℚ
  created_at : ℚ
deriving DecidableEq, Repr

/-- Python dict lookup on a string-keyed dict modelled as an association
list. -/
def dict_find {β : Type} : List (String × β) → String → Option β
  | [], _ => none
  | (k1, v) :: t, k => if k1 = k then some v else dict_find t k

/-- Python dict assignment d[k] = v: replace the entry if the key is
present, append it otherwise. -/
def dict_set {β : Type} : List (String × β) → String → β → List (String × β)
  | [], k, v => [(k, v)]
  | (k1, v1) :: t, k, v =>
    if k1 = k then (k, v) :: t else (k1, v1) :: dict_set t k v

/-- Python del d[k]: drop the (unique) entry with this key. -/
def dict_del {β : Type} : List (String × β) → String → List (String × β)
  | [], _ => []
  | (k1, v1) :: t, k => if k1 = k then t else (k1, v1) :: dict_del t k

/-- The InMemoryCache object (src/utils/cache.py lines 16-129): the
internal dict plus the default TTL. -/
structure InMemoryCache (α : Type) where
  cache : List (String × CacheEntry α)
  ttl : ℚ
deriving DecidableEq, Repr

/-- InMemoryCache.get (src/utils/cache.py lines 40-64): absent key returns
None; an entry with now strictly past expires_at is deleted and None is
returned; otherwise the stored value is returned. The result pairs the
returned value with the cache after the call (the lazy eviction is its
only mutation). -/
def InMemoryCache.get {α : Type} (c : InMemoryCache α) (key : String) (now : ℚ) :
    Option α × InMemoryCache α :=
  match dict_find c.cache key with
  | none => (none, c)
  | some entry =>
    if now > entry.expires_at then (none, { c with cache := dict_del c.cache key })
    else (some entry.value, c)

/-- Python `ttl = ttl or self.ttl` (src/utils/cache.py line 75): both None
and 0 are falsy, so both fall back to the default TTL. -/
def py_or_ttl (ttl : Option ℚ) (default_ttl : ℚ) : ℚ :=
  match ttl with
  | none => default_ttl
  | some tv => if tv = 0 then default_ttl else tv

/-- InMemoryCache.set (src/utils/cache.py lines 66-82): store the value
under the key with expires_at = now + (ttl or default ttl), overwriting
any prior entry. -/
def InMemoryCache.set {α : Type} (c : InMemoryCache α) (key : String) (value : α)
    (ttl : Option ℚ) (now : ℚ) : InMemoryCache α :=
  let entry : CacheEntry α :=
    { value := value, expires_at := now + py_or_ttl ttl c.ttl, created_at := now }
  { c with cache := dict_set c.cache key entry }

/-- Observable outcome of one call of a cached-wrapped function: the
value returned to the caller, the cache after the call, and whether the
underlying function was invoked. -/
structure CachedOutcome (β : Type) where
  value : Option β
  cache : InMemoryCache (Option β)
  invoked : Bool
deriving Repr

/-- One call of the function produced by the cached decorator
(src/utils/cache.py lines 152-194). Python values are either None or a
proper value, modelled as Option β; the stored values live in
InMemoryCache (Option β). key is the fingerprint computed from the
function name and the arguments; opResult is what the underlying function
returns when invoked. Python tests the raw return of cache.get with
`is not None`, which conflates a stored None with a miss: the two Option
layers of the model collapse into cached_value accordingly. -/
def cached_wrapper {β : Type} (enabled : Bool) (ttl : Option ℚ)
    (c : InMemoryCache (Option β)) (key : String) (now : ℚ)
    (opResult : Option β) : CachedOutcome β :=
  if enabled = false then { value := opResult, cache := c, invoked := true }
  else
    let g := c.get key now
    let cached_value : Option β :=
      match g.1 with
      | some v => v
      | none => none
    match cached_value with
    | some v => { value := some v, cache := g.2, invoked := false }
    | none =>
      { value := opResult, cache := g.2.set key opResult ttl now, invoked := true }

/-- A sequence of calls of an enabled cached-wrapped function with a fixed
fingerprint and a fixed underlying result, at the given times: returns the
final cache and the number of times the underlying function was invoked. -/
def run_cached {β : Type} (ttl : Option ℚ) (key : String) (opResult : Option β) :
    InMemoryCache (Option β) → List ℚ → InMemoryCache (Option β) × Nat
  | c, [] => (c, 0)
  | c, t :: ts =>
    let o := cached_wrapper true ttl c key t opResult
    let rest := run_cached ttl key opResult o.cache ts
    (rest.1, (if o.invoked then 1 else 0) + rest.2)

/-- The requests counters of the metrics collector
(src/utils/metrics.py lines 20-25). -/
structure Requests where
  total : Nat
  success : Nat
  failure : Nat
deriving DecidableEq, Repr

/-- Per-node execution statistics (src/utils/metrics.py lines 58-66).
min_duration none models the initial float(inf); durations are rationals. -/
@[ext]

structure NodeStats where
  count : Nat
  success : Nat
  failure : Nat
  total_duration : ℚ
  avg_duration : ℚ
  min_duration : Option ℚ
  max_duration : ℚ
deriving DecidableEq, Repr

/-- Per-operation latency statistics (src/utils/metrics.py lines 90-97):
the node statistics without the success/failure split. -/
structure LatencyStats where
  count : Nat
  total : ℚ
  avg : ℚ
  min : Option ℚ
  max : ℚ
deriving DecidableEq, Repr

/-- Cache hit counters (src/utils/metrics.py lines 29-32). -/
structure CacheStats where
  hits : Nat
  misses : Nat
deriving DecidableEq, Repr

/-- The MetricsCollector object (src/utils/metrics.py lines 15-36). -/
structure MetricsCollector where
  requests : Requests
  nodes : List (String × NodeStats)
  latency : List (String × LatencyStats)
  errors : List (String × Nat)
  cache : CacheStats
  start_time : ℚ
deriving Repr

/-- A freshly constructed collector. -/
def MetricsCollector.init (now : ℚ) : MetricsCollector :=
  { requests := ⟨0, 0, 0⟩, nodes := [], latency := [], errors := [],
    cache := ⟨0, 0⟩, start_time := now }

/-- increment_request (src/utils/metrics.py lines 38-45). -/
def MetricsCollector.increment_request (m : MetricsCollector) (success : Bool) :
    MetricsCollector :=
  if success then
    { m with requests := ⟨m.requests.total + 1, m.requests.success + 1, m.requests.failure⟩ }
  else
    { m with requests := ⟨m.requests.total + 1, m.requests.success, m.requests.failure + 1⟩ }

/-- The per-node statistics lazily created on first use
(src/utils/metrics.py lines 58-66): min starts at float(inf), max at 0. -/
def initNodeStats : NodeStats :=
  { count := 0, success := 0, failure := 0, total_duration := 0,
    avg_duration := 0, min_duration := none, max_duration := 0 }

/-- The in-place update of one node statistics record
(src/utils/metrics.py lines 68-79): bump the count and the
success/failure split, add the duration, recompute avg = total / count,
min = min(min, duration) (with min(inf, d) = d), max = max(max, duration). -/
def NodeStats.update (st : NodeStats) (duration : ℚ) (success : Bool) : NodeStats :=
  let count := st.count + 1
  let total := st.total_duration + duration
  { count := count,
    success := if success then st.success + 1 else st.success,
    failure := if success then st.failure else st.failure + 1,
    total_duration := total,
    avg_duration := total / (count : ℚ),
    min_duration := some (match st.min_duration with
      | none => duration
      | some mn => min mn duration),
    max_duration := max st.max_duration duration }

/-- record_node_execution (src/utils/metrics.py lines 47-79): insert the
initial statistics if the name is new, then update them in place -
equivalently, update the found-or-initial statistics and store the result. -/
def MetricsCollector.record_node_execution (m : MetricsCollector) (node_name : String)
    (duration : ℚ) (success : Bool) : MetricsCollector :=
  let st := (dict_find m.nodes node_name).getD initNodeStats
  { m with nodes := dict_set m.nodes node_name (st.update duration success) }

/-- The in-place update of one latency record
(src/utils/metrics.py lines 99-104). -/
def LatencyStats.update (st : LatencyStats) (duration : ℚ) : LatencyStats :=
  let count := st.count + 1
  let total := st.total + duration
  { count := count, total := total, avg := total / (count : ℚ),
    min := some (match st.min with
      | none => duration
      | some mn => Min.min mn duration),
    max := Max.max st.max duration }

/-- record_latency (src/utils/metrics.py lines 81-104). -/
def MetricsCollector.record_latency (m : MetricsCollector) (operation : String)
    (duration : ℚ) : MetricsCollector :=
  let st := (dict_find m.latency operation).getD
    { count := 0, total := 0, avg := 0, min := none, max := 0 }
  { m with latency := dict_set m.latency operation (st.update duration) }

/-- record_error (src/utils/metrics.py lines 106-116): a named counter
defaulting to 0 on first occurrence. -/
def MetricsCollector.record_error (m : MetricsCollector) (error_type : String) :
    MetricsCollector :=
  let cnt := (dict_find m.errors error_type).getD 0
  { m with errors := dict_set m.errors error_type (cnt + 1) }

/-- record_cache_hit (src/utils/metrics.py lines 118-124). -/
def MetricsCollector.record_cache_hit (m : MetricsCollector) (hit : Bool) :
    MetricsCollector :=
  if hit then { m with cache := ⟨m.cache.hits + 1, m.cache.misses⟩ }
  else { m with cache := ⟨m.cache.hits, m.cache.misses + 1⟩ }

/-- The snapshot returned by get_metrics (src/utils/metrics.py
lines 126-162); the formatted timestamp string of the code is omitted
from the model. -/
structure MetricsSnapshot where
  uptime_seconds : ℚ
  requests : Requests
  success_rate : ℚ
  nodes : List (String × NodeStats)
  latency : List (String × LatencyStats)
  errors : List (String × Nat)
  cache_hits : Nat
  cache_misses : Nat
  cache_hit_rate : ℚ
deriving Repr

/-- get_metrics (src/utils/metrics.py lines 126-162): a read-only snapshot
with the derived rates, guarded against division by zero. -/
def MetricsCollector.get_metrics (m : MetricsCollector) (now : ℚ) : MetricsSnapshot :=
  let cache_total := m.cache.hits + m.cache.misses
  { uptime_seconds := now - m.start_time,
    requests := m.requests,
    success_rate := if 0 < m.requests.total then (m.requests.success : ℚ) / (m.requests.total : ℚ) else 0,
    nodes := m.nodes,
    latency := m.latency,
    errors := m.errors,
    cache_hits := m.cache.hits,
    cache_misses := m.cache.misses,
    cache_hit_rate := if 0 < cache_total then (m.cache.hits : ℚ) / (cache_total : ℚ) else 0 }

/-- reset (src/utils/metrics.py lines 164-175): replace all aggregates by
their zero state and restart the uptime clock. -/
def MetricsCollector.reset (_m : MetricsCollector) (now : ℚ) : MetricsCollector :=
  MetricsCollector.init now

/-- The per-node statistics the claim predicts for the sample list l of
(duration, success) pairs: count = number of samples, success = number of
successful samples, failure = the rest, total = sum of durations,
avg = total / count, min = minimum duration, max = maximum duration. -/
def specNodeStats (l : List (ℚ × Bool)) : NodeStats :=
  { count := l.length,
    success := (l.filter (fun p => p.2)).length,
    failure := l.length - (l.filter (fun p => p.2)).length,
    total_duration := (l.map Prod.fst).sum,
    avg_duration := (l.map Prod.fst).sum / (l.length : ℚ),
    min_duration := (l.map Prod.fst).min?,
    max_duration := ((l.map Prod.fst).max?).getD 0 }

/-- The two accounting invariants of C10: the request total splits into
success + failure, and every tracked node count splits into its
success + failure. -/
def MetricsInv (m : MetricsCollector) : Prop :=
  m.requests.total = m.requests.success + m.requests.failure ∧
  ∀ p ∈ m.nodes, p.2.count = p.2.success + p.2.failure

/-- One-step unfolding of the attempt loop. -/
theorem retry_wrapper_loop_eq (excs : List ExcType) (name : String)
    (op : Nat → Except PyError α) (f : ℚ) (mr : Nat) (a r : Nat) (dl : ℚ) :
    retry_wrapper_loop excs name op f mr a r dl =
      match op a with
      | .ok v => { result := .ok v, invocations := 1, sleeps := [] }
      | .error e =>
        if exc_caught excs e.ty then
          match r with
          | 0 =>
            { result := .error (mkRetryExhausted name mr e),
              invocations := 1, sleeps := [] }
          | r' + 1 =>
            let rest := retry_wrapper_loop excs name op f mr (a + 1) r' (dl * f)
            { result := rest.result, invocations := rest.invocations + 1,
              sleeps := dl :: rest.sleeps }
        else
          { result := .error e, invocations := 1, sleeps := [] } := by
  conv_lhs => rw [retry_wrapper_loop]

/-- Prepending the current delay to a geometric delay list that starts one
backoff step later yields the geometric delay list, one element longer. -/
theorem geom_delay_cons (dl f : ℚ) (r : Nat) :
    dl :: (List.range r).map (fun i => dl * f * f ^ i) =
      (List.range (r + 1)).map (fun i => dl * f ^ i) := by
  rw [List.range_succ_eq_map, List.map_cons, List.map_map]
  refine congrArg₂ List.cons (by simp) ?_
  refine (List.map_congr_left ?_).symm
  intro i _
  simp [Function.comp, pow_succ]
  ring

/-- If the wrapped function raises a caught exception on every invocation,
the attempt loop entered at attempt a with r iterations left performs all
r + 1 invocations, sleeps the geometric delays, and raises the
RetryExhaustedError built from the error of the final attempt a + r. -/
theorem retry_wrapper_loop_allFail (excs : List ExcType) (name : String)
    (op : Nat → Except PyError α) (err : Nat → PyError) (f : ℚ) (mr : Nat)
    (hop : ∀ k, op k = Except.error (err k))
    (hc : ∀ k, exc_caught excs (err k).ty = true) :
    ∀ r a dl, retry_wrapper_loop excs name op f mr a r dl =
      { result := Except.error (mkRetryExhausted name mr (err (a + r))),
        invocations := r + 1,
        sleeps := (List.range r).map (fun i => dl * f ^ i) } := by
  intro r
  induction r with
  | zero =>
    intro a dl
    rw [retry_wrapper_loop_eq, hop a]
    simp [hc a]
  | succ r ih =>
    intro a dl
    rw [retry_wrapper_loop_eq, hop a]
    simp only [hc a, if_true]
    rw [ih (a + 1) (dl * f)]
    have hidx : a + 1 + r = a + (r + 1) := by omega
    simp [hidx, geom_delay_cons]

/-- Whatever the wrapped function does, the sleeps performed by the
attempt loop entered with current delay dl form the geometric sequence
dl, dl * f, dl * f ^ 2, ... -/
theorem retry_wrapper_loop_sleeps (excs : List ExcType) (name : String)
    (op : Nat → Except PyError α) (f : ℚ) (mr : Nat) :
    ∀ r a dl,
      (retry_wrapper_loop excs name op f mr a r dl).sleeps =
        (List.range (retry_wrapper_loop excs name op f mr a r dl).sleeps.length).map
          (fun i => dl * f ^ i) := by
  intro r
  induction r with
  | zero =>
    intro a dl
    rw [retry_wrapper_loop_eq]
    cases hball : op a with
    | ok v => simp
    | error e => cases hcg : exc_caught excs e.ty <;> simp [hcg]
  | succ r ih =>
    intro a dl
    rw [retry_wrapper_loop_eq]
    cases hball : op a with
    | ok v => simp
    | error e =>
      cases hcg : exc_caught excs e.ty with
      | false => simp [hcg]
      | true =>
        simp only [hcg, if_true]
        rw [ih (a + 1) (dl * f)]
        simp [geom_delay_cons, List.length_map, List.length_range]

/-- If the wrapped function raises caught exceptions at attempts before j
and an uncaught exception e at attempt j (with j further iterations still
available), the loop stops at attempt j with exactly e raised, j + 1
invocations and j sleeps. -/
theorem retry_wrapper_loop_uncaught (excs : List ExcType) (name : String)
    (op : Nat → Except PyError α) (f : ℚ) (mr : Nat) (e : PyError) :
    ∀ j a r dl, j ≤ r →
      (∀ k, k < j → ∃ ek, op (a + k) = Except.error ek ∧ exc_caught excs ek.ty = true) →
      op (a + j) = Except.error e →
      exc_caught excs e.ty = false →
      retry_wrapper_loop excs name op f mr a r dl =
        { result := Except.error e, invocations := j + 1,
          sleeps := (List.range j).map (fun i => dl * f ^ i) } := by
  intro j
  induction j with
  | zero =>
    intro a r dl _ _ hAtJ hnc
    rw [Nat.add_zero] at hAtJ
    rw [retry_wrapper_loop_eq, hAtJ]
    simp [hnc]
  | succ j ih =>
    intro a r dl hjr hbefore hAtJ hnc
    obtain ⟨e0, he0, hc0⟩ := hbefore 0 (Nat.succ_pos j)
    rw [Nat.add_zero] at he0
    obtain ⟨r', rfl⟩ : ∃ r', r = r' + 1 := ⟨r - 1, by omega⟩
    rw [retry_wrapper_loop_eq, he0]
    simp only [hc0, if_true]
    rw [ih (a + 1) r' (dl * f) (by omega)
      (fun k hk => by
        obtain ⟨ek, hek, hck⟩ := hbefore (k + 1) (by omega)
        exact ⟨ek, by rw [show a + 1 + k = a + (k + 1) by omega]; exact hek, hck⟩)
      (by rw [show a + 1 + j = a + (j + 1) by omega]; exact hAtJ) hnc]
    simp [geom_delay_cons]

/-- Concrete evaluation of the retry wrapper on an always-failing
operation with max_retries = 2. -/
theorem retry_concrete_eval :
    retry_with_backoff 2 1 2 [ExcType.base] "f"
      (fun _ => (Except.error (PyError.simple ExcType.valueError "boom") : Except PyError Nat))
      = { result := Except.error (PyError.retryExhausted "Failed after 3 attempts: boom" "f" 3 "boom"),
          invocations := 3, sleeps := [1, 2] } := by
  norm_num [retry_with_backoff, retry_wrapper_loop, exc_caught, ExcType.issubclass,
    PyError.ty, mkRetryExhausted, PyError.str]
  decide

/-- C1: for every max_retries = n and every operation raising a retryable
(caught) error on every invocation, the retry-wrapped call invokes the
operation exactly n + 1 times and fails with a RetryExhaustedError whose
details carry the function name, the attempt count n + 1, and the message
of the last error; this error is of class RetryExhaustedError, distinct
from the class of the underlying failure. -/
theorem retry_exhausts_after_all_attempts (n : Nat) (d f : ℚ)
    (excs : List ExcType) (name : String) (op : Nat → Except PyError α)
    (err : Nat → PyError)
    (hop : ∀ k, op k = Except.error (err k))
    (hc : ∀ k, exc_caught excs (err k).ty = true) :
    (retry_with_backoff n d f excs name op).invocations = n + 1 ∧
    (retry_with_backoff n d f excs name op).result =
      Except.error (PyError.retryExhausted
        ("Failed after " ++ toString (n + 1) ++ " attempts: " ++ (err n).str)
        name (n + 1) ((err n).str)) ∧
    (∀ res : PyError,
      (retry_with_backoff n d f excs name op).result = Except.error res →
      res.ty = ExcType.retryExhausted ∧
        ((err n).ty ≠ ExcType.retryExhausted → res.ty ≠ (err n).ty)) := by
  have h := retry_wrapper_loop_allFail excs name op err f n hop hc n 0 d
  rw [Nat.zero_add] at h
  unfold retry_with_backoff
  rw [h]
  refine ⟨rfl, rfl, ?_⟩
  intro res hres
  have hres2 : mkRetryExhausted name n (err n) = res := by
    simpa using hres
  subst hres2
  refine ⟨rfl, ?_⟩
  intro hne heq
  exact hne heq.symm

/-- Witness for C1 at max_retries = 2, a ValueError raised on every
invocation, retrying on all exceptions. -/
theorem retry_exhausts_after_all_attempts_witness :
    (retry_with_backoff 2 1 2 [ExcType.base] "call_llm"
      (fun _ => (Except.error (PyError.simple ExcType.valueError "boom") : Except PyError Nat))).invocations = 2 + 1 ∧
    (retry_with_backoff 2 1 2 [ExcType.base] "call_llm"
      (fun _ => (Except.error (PyError.simple ExcType.valueError "boom") : Except PyError Nat))).result =
      Except.error (PyError.retryExhausted
        ("Failed after " ++ toString (2 + 1) ++ " attempts: " ++ "boom") "call_llm" (2 + 1) "boom") := by
  have h := retry_exhausts_after_all_attempts 2 1 2 [ExcType.base] "call_llm"
    (fun _ => (Except.error (PyError.simple ExcType.valueError "boom") : Except PyError Nat))
    (fun _ => PyError.simple ExcType.valueError "boom")
    (fun _ => rfl) (fun _ => rfl)
  exact ⟨h.1, h.2.1⟩

/-- C7: whatever the wrapped operation does, the i-th backoff sleep of a
retry-wrapped call lasts initial_delay * backoff_factor ^ i: the sleep
list is the geometric sequence with no jitter and no cap. -/
theorem retry_delay_sequence (n : Nat) (d f : ℚ) (excs : List ExcType)
    (name : String) (op : Nat → Except PyError α) :
    (retry_with_backoff n d f excs name op).sleeps =
      (List.range (retry_with_backoff n d f excs name op).sleeps.length).map
        (fun i => d * f ^ i) := by
  unfold retry_with_backoff
  exact retry_wrapper_loop_sleeps excs name op f n n 0 d

/-- C4: an operation raising a non-retryable (uncaught) error at attempt j,
after retryable failures at the attempts before j, makes the retry-wrapped
call propagate that error unchanged with exactly j + 1 invocations and only
the j backoff sleeps of the earlier retryable failures: no extra attempt,
no extra sleep, no RetryExhaustedError wrapping. -/
theorem retry_nonretryable_propagates (n j : Nat) (d f : ℚ)
    (excs : List ExcType) (name : String) (op : Nat → Except PyError α)
    (e : PyError) (hj : j ≤ n)
    (hbefore : ∀ k, k < j → ∃ ek, op k = Except.error ek ∧ exc_caught excs ek.ty = true)
    (hAtJ : op j = Except.error e)
    (hnc : exc_caught excs e.ty = false) :
    retry_with_backoff n d f excs name op =
      { result := Except.error e, invocations := j + 1,
        sleeps := (List.range j).map (fun i => d * f ^ i) } := by
  unfold retry_with_backoff
  exact retry_wrapper_loop_uncaught excs name op f n e j 0 n d hj
    (by simpa using hbefore) (by simpa using hAtJ) hnc

/-- The gate either rejects, keeps the breaker unchanged, or moves an OPEN
breaker to HALF_OPEN, leaving every other field unchanged. -/
theorem CircuitBreaker.gate_ok (cb cb1 : CircuitBreaker) (now : ℚ)
    (h : cb.gate now = Except.ok cb1) :
    cb1 = cb ∨ (cb.state = CBState.OPEN ∧ cb1 = { cb with state := CBState.HALF_OPEN }) := by
  unfold CircuitBreaker.gate at h
  by_cases hst : cb.state = CBState.OPEN
  · simp only [hst, if_true] at h
    cases hlft : cb.last_failure_time with
    | none => rw [hlft] at h; simp at h
    | some t =>
      rw [hlft] at h
      by_cases htime : now - t ≥ cb.timeout
      · simp only [htime, if_true] at h
        exact Or.inr ⟨hst, (Except.ok.inj h).symm⟩
      · simp [htime] at h
  · simp only [hst, if_false] at h
    exact Or.inl (Except.ok.inj h).symm

/-- One call preserves the invariant CBInv. -/
theorem CBInv_call (cb : CircuitBreaker) (now tFail : ℚ)
    (op : Except PyError α) (h : CBInv cb) :
    CBInv (CircuitBreaker.call cb now tFail op).cb := by
  unfold CircuitBreaker.call
  cases hg : cb.gate now with
  | error e => simpa using h
  | ok cb1 =>
    have hinv1 : CBInv cb1 := by
      rcases CircuitBreaker.gate_ok cb cb1 now hg with heq | ⟨hopen, heq⟩
      · rwa [heq]
      · intro _
        rw [heq]
        exact h (by rw [hopen]; simp)
    cases op with
    | ok v =>
      by_cases hho : cb1.state = CBState.HALF_OPEN
      · simp [hho, CBInv]
      · simpa [hho] using hinv1
    | error e =>
      by_cases hmatch : e.ty.issubclass cb1.expected_exception = true
      · by_cases hthr : cb1.failure_threshold ≤ cb1.failure_count + 1
        · simp only [hmatch, hthr, if_true, CBInv]
          intro _
          simp
        · simp only [hmatch, hthr, if_true, if_false, CBInv]
          intro hne
          have hne1 : cb1.state ≠ CBState.CLOSED := by simpa using hne
          exact hthr (Nat.le_succ_of_le (hinv1 hne1))
      · simpa [hmatch] using hinv1

/-- Assignment then lookup on the same key finds the assigned value. -/
theorem dict_find_set_self {β : Type} (l : List (String × β)) (k : String) (v : β) :
    dict_find (dict_set l k v) k = some v := by
  induction l with
  | nil => simp [dict_set, dict_find]
  | cons p t ih =>
    obtain ⟨k1, v1⟩ := p
    by_cases h : k1 = k
    · simp [dict_set, h, dict_find]
    · simp [dict_set, h, dict_find, ih]

/-- A key that occurs nowhere in the dict is not found. -/
theorem dict_find_eq_none_of_not_mem {β : Type} (l : List (String × β)) (k : String)
    (h : k ∉ l.map Prod.fst) : dict_find l k = none := by
  induction l with
  | nil => rfl
  | cons p t ih =>
    obtain ⟨k1, v1⟩ := p
    simp only [List.map_cons, List.mem_cons, not_or] at h
    have hne : k1 ≠ k := fun e => h.1 e.symm
    simp [dict_find, hne, ih h.2]

/-- Deleting a key from a dict with no duplicate keys removes it. -/
theorem dict_find_del_self {β : Type} (l : List (String × β)) (k : String)
    (h : (l.map Prod.fst).Nodup) : dict_find (dict_del l k) k = none := by
  induction l with
  | nil => rfl
  | cons p t ih =>
    obtain ⟨k1, v1⟩ := p
    simp only [List.map_cons, List.nodup_cons] at h
    by_cases hk : k1 = k
    · subst hk
      simp only [dict_del, if_pos rfl]
      exact dict_find_eq_none_of_not_mem t k1 h.1
    · simp [dict_del, hk, dict_find, ih h.2]

/-- A get call that returns a value leaves the cache unchanged. -/
theorem InMemoryCache.get_hit_snd {α : Type} (c : InMemoryCache α) (key : String)
    (now : ℚ) (x : α) (h : (c.get key now).1 = some x) :
    (c.get key now).2 = c := by
  cases hf : dict_find c.cache key with
  | none =>
    have hg : c.get key now = (none, c) := by
      unfold InMemoryCache.get
      rw [hf]
    rw [hg] at h
    simp at h
  | some e =>
    by_cases hexp : now > e.expires_at
    · have hg : c.get key now = (none, { c with cache := dict_del c.cache key }) := by
        unfold InMemoryCache.get
        rw [hf]
        simp [hexp]
      rw [hg] at h
      simp at h
    · have hg : c.get key now = (some e.value, c) := by
        unfold InMemoryCache.get
        rw [hf]
        simp [hexp]
      rw [hg]

/-- C6: get returns the stored value exactly when an entry for the key
exists and now <= expires_at, leaving the cache unchanged; an absent key
returns None with no change; an expired entry (now > expires_at) returns
None and is removed from the dict by the failed read; set stores the value
with expires_at = now + (ttl or default_ttl), overwriting any prior entry
for that key. -/
theorem cache_get_set_spec {α : Type} (c : InMemoryCache α) (key : String)
    (now : ℚ) (v : α) (ttl : Option ℚ) :
    (∀ e, dict_find c.cache key = some e → now ≤ e.expires_at →
      c.get key now = (some e.value, c)) ∧
    (dict_find c.cache key = none → c.get key now = (none, c)) ∧
    (∀ e, dict_find c.cache key = some e → e.expires_at < now →
      (c.get key now).1 = none ∧
      ((c.cache.map Prod.fst).Nodup →
        dict_find ((c.get key now).2.cache) key = none)) ∧
    dict_find ((c.set key v ttl now).cache) key =
      some { value := v, expires_at := now + py_or_ttl ttl c.ttl, created_at := now } := by
  refine ⟨?_, ?_, ?_, ?_⟩
  · intro e he hle
    unfold InMemoryCache.get
    rw [he]
    simp [not_lt.mpr hle]
  · intro hnone
    unfold InMemoryCache.get
    rw [hnone]
  · intro e he hlt
    have hg : c.get key now = (none, { c with cache := dict_del c.cache key }) := by
      unfold InMemoryCache.get
      rw [he]
      simp [hlt]
    rw [hg]
    exact ⟨rfl, fun hnd => dict_find_del_self c.cache key hnd⟩
  · unfold InMemoryCache.set
    exact dict_find_set_self c.cache key _

/-- Witness for C6 on a one-entry cache: a fresh read returns the value
and changes nothing, an absent key misses, an expired read returns None
and evicts the entry, and a set overwrites the entry. -/
theorem cache_get_set_spec_witness :
    InMemoryCache.get (InMemoryCache.mk [("k", CacheEntry.mk (42 : Nat) 10 0)] 3600) "k" 5 =
      (some 42, InMemoryCache.mk [("k", CacheEntry.mk 42 10 0)] 3600) ∧
    InMemoryCache.get (InMemoryCache.mk [("k", CacheEntry.mk (42 : Nat) 10 0)] 3600) "absent" 5 =
      (none, InMemoryCache.mk [("k", CacheEntry.mk 42 10 0)] 3600) ∧
    (InMemoryCache.get (InMemoryCache.mk [("k", CacheEntry.mk (42 : Nat) 10 0)] 3600) "k" 20).1 = none ∧
    dict_find ((InMemoryCache.get (InMemoryCache.mk [("k", CacheEntry.mk (42 : Nat) 10 0)] 3600) "k" 20).2.cache) "k" = none ∧
    dict_find ((InMemoryCache.set (InMemoryCache.mk [("k", CacheEntry.mk (42 : Nat) 10 0)] 3600) "k" 7 none 100).cache) "k" =
      some (CacheEntry.mk 7 (100 + py_or_ttl none 3600) 100) := by
  have h1 := cache_get_set_spec (InMemoryCache.mk [("k", CacheEntry.mk (42 : Nat) 10 0)] 3600) "k" 5 7 none
  have h2 := cache_get_set_spec (InMemoryCache.mk [("k", CacheEntry.mk (42 : Nat) 10 0)] 3600) "absent" 5 7 none
  have h3 := cache_get_set_spec (InMemoryCache.mk [("k", CacheEntry.mk (42 : Nat) 10 0)] 3600) "k" 20 7 none
  have h4 := cache_get_set_spec (InMemoryCache.mk [("k", CacheEntry.mk (42 : Nat) 10 0)] 3600) "k" 100 7 none
  have hfind : dict_find (InMemoryCache.mk [("k", CacheEntry.mk (42 : Nat) 10 0)] 3600).cache "k" =
      some (CacheEntry.mk 42 10 0) := by simp [dict_find]
  have hmiss : dict_find (InMemoryCache.mk [("k", CacheEntry.mk (42 : Nat) 10 0)] 3600).cache "absent" = none := by
    simp [dict_find]
  refine ⟨h1.1 (CacheEntry.mk 42 10 0) hfind (by norm_num), h2.2.1 hmiss,
    (h3.2.2.1 (CacheEntry.mk 42 10 0) hfind (by norm_num)).1,
    (h3.2.2.1 (CacheEntry.mk 42 10 0) hfind (by norm_num)).2 (by simp), h4.2.2.2⟩

/-- A call on a fresh entry whose stored value is not None is a hit:
the value is served, the cache is unchanged, the operation not invoked. -/
theorem cached_wrapper_hit {β : Type} (ttl : Option ℚ)
    (c1 : InMemoryCache (Option β)) (key : String) (t : ℚ) (r : Option β)
    (e : CacheEntry (Option β)) (b : β)
    (hf : dict_find c1.cache key = some e) (hv : e.value = some b)
    (hfresh : t ≤ e.expires_at) :
    cached_wrapper true ttl c1 key t r =
      { value := some b, cache := c1, invoked := false } := by
  simp [cached_wrapper, InMemoryCache.get, hf, not_lt.mpr hfresh, hv]

/-- While the entry for the key stays fresh with a non-None value, a run
of wrapped calls performs no invocation and leaves the cache unchanged. -/
theorem run_cached_all_hits {β : Type} (ttl : Option ℚ) (key : String)
    (r : Option β) (c1 : InMemoryCache (Option β)) (e : CacheEntry (Option β))
    (b : β) (hf : dict_find c1.cache key = some e) (hv : e.value = some b) :
    ∀ ts : List ℚ, (∀ u ∈ ts, u ≤ e.expires_at) →
      run_cached ttl key r c1 ts = (c1, 0) := by
  intro ts
  induction ts with
  | nil => intro _; rfl
  | cons t ts ih =>
    intro hall
    have hcall := cached_wrapper_hit ttl c1 key t r e b hf hv (hall t (by simp))
    simp only [run_cached, hcall]
    rw [ih (fun u hu => hall u (by simp [hu]))]
    simp

/-- C3 (amended): a disabled wrapper always invokes and never touches the
cache; on a hit (the cached value is a non-None value) the cached value is
returned without invoking; on a miss the operation is invoked, the result
stored under the fingerprint and returned; and for a non-None operation
result, the operation is invoked exactly once per fingerprint within one
TTL window when the fingerprint starts absent. -/
theorem cached_wrapper_spec {β : Type} (ttl : Option ℚ)
    (c : InMemoryCache (Option β)) (key : String) (now : ℚ) (r : Option β) :
    (cached_wrapper false ttl c key now r = { value := r, cache := c, invoked := true }) ∧
    (∀ v : β, (c.get key now).1 = some (some v) →
      cached_wrapper true ttl c key now r =
        { value := some v, cache := c, invoked := false }) ∧
    ((c.get key now).1 = none →
      cached_wrapper true ttl c key now r =
        { value := r, cache := (c.get key now).2.set key r ttl now, invoked := true }) ∧
    (∀ (b : β) (ts : List ℚ), dict_find c.cache key = none →
      (∀ u ∈ ts, u ≤ now + py_or_ttl ttl c.ttl) →
      (run_cached ttl key (some b) c (now :: ts)).2 = 1) := by
  refine ⟨by simp [cached_wrapper], ?_, ?_, ?_⟩
  · intro v hv
    have hsnd := InMemoryCache.get_hit_snd c key now (some v) hv
    simp [cached_wrapper, hv, hsnd]
  · intro h
    simp [cached_wrapper, h]
  · intro b ts hfind hwin
    have hget : c.get key now = (none, c) := by
      unfold InMemoryCache.get
      rw [hfind]
    have hone : cached_wrapper true ttl c key now (some b) =
        { value := some b, cache := c.set key (some b) ttl now, invoked := true } := by
      simp [cached_wrapper, hget]
    have hf1 : dict_find ((c.set key (some b) ttl now).cache) key =
        some { value := some b, expires_at := now + py_or_ttl ttl c.ttl, created_at := now } := by
      unfold InMemoryCache.set
      exact dict_find_set_self c.cache key _
    simp only [run_cached, hone]
    rw [run_cached_all_hits ttl key (some b) (c.set key (some b) ttl now) _ b hf1 rfl ts hwin]
    simp

/-- Witness for C3 at concrete caches: a disabled call, a hit on a stored
value 9, a miss on the empty cache, and a three-call run with one
invocation. -/
theorem cached_wrapper_spec_witness :
    (cached_wrapper false none (InMemoryCache.mk [] (3600 : ℚ)) "k" 0 (some (5 : Nat)) =
      { value := some 5, cache := InMemoryCache.mk [] 3600, invoked := true }) ∧
    (cached_wrapper true none (InMemoryCache.mk [("k", CacheEntry.mk (some (9 : Nat)) 10 0)] 3600) "k" 5 (some 7) =
      { value := some 9, cache := InMemoryCache.mk [("k", CacheEntry.mk (some 9) 10 0)] 3600, invoked := false }) ∧
    (cached_wrapper true none (InMemoryCache.mk [] (3600 : ℚ)) "k" 0 (some (5 : Nat)) =
      { value := some 5,
        cache := ((InMemoryCache.mk [] (3600 : ℚ)).get "k" 0).2.set "k" (some 5) none 0,
        invoked := true }) ∧
    (run_cached none "k" (some (5 : Nat)) (InMemoryCache.mk [] (3600 : ℚ)) [0, 1, 2]).2 = 1 := by
  have hd := cached_wrapper_spec none (InMemoryCache.mk [] (3600 : ℚ)) "k" 0 (some (5 : Nat))
  have hh := cached_wrapper_spec none (InMemoryCache.mk [("k", CacheEntry.mk (some (9 : Nat)) 10 0)] 3600) "k" 5 (some 7)
  refine ⟨hd.1, hh.2.1 9 ?_, hd.2.2.1 ?_, hd.2.2.2 5 [1, 2] rfl ?_⟩
  · simp [InMemoryCache.get, dict_find]
    norm_num
  · simp [InMemoryCache.get, dict_find]
  · intro u hu
    fin_cases hu <;> norm_num [py_or_ttl]

/-- C3 counterexample: with the operation returning None, two calls with
the same fingerprint both inside one TTL window invoke the operation
twice, refuting "at most once per distinct fingerprint per TTL window"
as universally stated. -/
theorem cached_atmostonce_counterexample :
    (2 : ℚ) ≤ 0 + py_or_ttl none (3600 : ℚ) ∧
    (run_cached none "k" (none : Option Nat) (InMemoryCache.mk [] 3600) [0, 2]).2 = 2 := by
  constructor
  · norm_num [py_or_ttl]
  · norm_num [run_cached, cached_wrapper, InMemoryCache.get, InMemoryCache.set,
      dict_find, dict_set, dict_del, py_or_ttl]

/-- A call on an entry whose stored value is None always invokes the
operation, whether or not the entry is fresh. -/
theorem cached_wrapper_invoked_of_value_none {β : Type} (ttl : Option ℚ)
    (c1 : InMemoryCache (Option β)) (key : String) (t : ℚ) (r : Option β)
    (e : CacheEntry (Option β)) (hf : dict_find c1.cache key = some e)
    (hv : e.value = (none : Option β)) :
    (cached_wrapper true ttl c1 key t r).invoked = true := by
  by_cases hexp : t > e.expires_at
  · simp [cached_wrapper, InMemoryCache.get, hf, hexp]
  · simp [cached_wrapper, InMemoryCache.get, hf, hexp, hv]

/-- Reading a key whose stored value is None yields None whether the
entry is fresh (the stored None is returned) or expired (a miss). -/
theorem get_of_find_value_none {β : Type} (c2 : InMemoryCache (Option β))
    (key : String) (t2 : ℚ) (e : CacheEntry (Option β))
    (hf : dict_find c2.cache key = some e) (hv : e.value = none) :
    Option.join ((c2.get key t2).1) = none := by
  by_cases hexp : t2 > e.expires_at
  · have hg : c2.get key t2 = (none, { c2 with cache := dict_del c2.cache key }) := by
      unfold InMemoryCache.get
      rw [hf]
      simp [hexp]
    rw [hg]
    rfl
  · have hg : c2.get key t2 = (some e.value, c2) := by
      unfold InMemoryCache.get
      rw [hf]
      simp [hexp]
    rw [hg]
    simp [hv]

/-- C9: when the underlying operation returns None, the enabled wrapper
invokes it, stores None, and on any later call the cache read yields None
(a stored None is indistinguishable from a miss), so the wrapper invokes
the operation again. -/
theorem cached_none_reinvoked {β : Type} (ttl : Option ℚ)
    (c : InMemoryCache (Option β)) (key : String) (t1 t2 : ℚ)
    (h1 : (c.get key t1).1 = none ∨ (c.get key t1).1 = some none) :
    (cached_wrapper true ttl c key t1 none).invoked = true ∧
    Option.join (((cached_wrapper true ttl c key t1 none).cache.get key t2).1) = none ∧
    (cached_wrapper true ttl (cached_wrapper true ttl c key t1 none).cache key t2 none).invoked = true := by
  have ho1 : cached_wrapper true ttl c key t1 none =
      { value := none, cache := (c.get key t1).2.set key none ttl t1, invoked := true } := by
    rcases h1 with h | h <;> simp [cached_wrapper, h]
  have hf : dict_find ((c.get key t1).2.set key none ttl t1).cache key =
      some { value := (none : Option β),
             expires_at := t1 + py_or_ttl ttl ((c.get key t1).2.ttl),
             created_at := t1 } := by
    unfold InMemoryCache.set
    exact dict_find_set_self _ key _
  refine ⟨by rw [ho1], ?_, ?_⟩
  · rw [ho1]
    exact get_of_find_value_none _ key t2 _ hf rfl
  · rw [ho1]
    exact cached_wrapper_invoked_of_value_none ttl _ key t2 none _ hf rfl

/-- Witness for C9 on the empty cache: the first call with a None result
invokes, the cache read at a later time still yields None, and the second
call invokes again. -/
theorem cached_none_reinvoked_witness :
    (cached_wrapper true none (InMemoryCache.mk [] (3600 : ℚ)) "k" 0 (none : Option Nat)).invoked = true ∧
    Option.join (((cached_wrapper true none (InMemoryCache.mk [] (3600 : ℚ)) "k" 0 (none : Option Nat)).cache.get "k" 1).1) = none ∧
    (cached_wrapper true none (cached_wrapper true none (InMemoryCache.mk [] (3600 : ℚ)) "k" 0 (none : Option Nat)).cache "k" 1 (none : Option Nat)).invoked = true :=
  cached_none_reinvoked none (InMemoryCache.mk [] (3600 : ℚ)) "k" 0 1 (Or.inl rfl)

/-- Appending one element to a list shifts its minimum by one min step. -/
theorem min?_append_singleton (l : List ℚ) (d : ℚ) :
    (l ++ [d]).min? = some (match l.min? with | none => d | some m => min m d) := by
  cases l with
  | nil => rfl
  | cons a as =>
    show ((a :: (as ++ [d])).min?) = _
    simp [List.min?, List.foldl_append]

/-- Appending one element to a list shifts its maximum by one max step. -/
theorem max?_append_singleton (l : List ℚ) (d : ℚ) :
    (l ++ [d]).max? = some (match l.max? with | none => d | some m => max m d) := by
  cases l with
  | nil => rfl
  | cons a as =>
    show ((a :: (as ++ [d])).max?) = _
    simp [List.max?, List.foldl_append]

/-- The lazily created initial statistics are the claim statistics of the
empty sample list. -/
theorem specNodeStats_nil : specNodeStats [] = initNodeStats := by
  simp [specNodeStats, initNodeStats, List.min?, List.max?]

/-- One code update step takes the claim statistics of l to the claim
statistics of l extended by the new sample (nonnegativity of the duration
is needed because the code seeds max at 0). -/
theorem specNodeStats_update (l : List (ℚ × Bool)) (d : ℚ) (s : Bool) (hd : 0 ≤ d) :
    NodeStats.update (specNodeStats l) d s = specNodeStats (l ++ [(d, s)]) := by
  have hsle := List.length_filter_le (fun p => p.2) l
  unfold NodeStats.update specNodeStats
  simp only [NodeStats.mk.injEq]
  refine ⟨by simp, ?_, ?_, by simp, ?_, ?_, ?_⟩
  · cases s <;> simp [List.filter_append]
  · cases s
    all_goals simp [List.filter_append]
    all_goals omega
  · simp [List.sum_append]
  · rw [List.map_append]
    simp only [List.map_cons, List.map_nil]
    rw [min?_append_singleton]
  · rw [List.map_append]
    simp only [List.map_cons, List.map_nil]
    rw [max?_append_singleton]
    cases hmx : (l.map Prod.fst).max? with
    | none => simp [max_eq_right hd]
    | some mx => simp

/-- Looking up the node right after one record_node_execution yields the
updated found-or-initial statistics. -/
theorem record_node_execution_find (m : MetricsCollector) (name : String)
    (d : ℚ) (s : Bool) :
    dict_find ((m.record_node_execution name d s).nodes) name =
      some (((dict_find m.nodes name).getD initNodeStats).update d s) := by
  unfold MetricsCollector.record_node_execution
  exact dict_find_set_self m.nodes name _

/-- Folding further samples over a collector whose stored node statistics
are the claim statistics of the samples so far keeps them in step. -/
theorem record_node_foldl (name : String) :
    ∀ (l2 : List (ℚ × Bool)) (m : MetricsCollector) (l1 : List (ℚ × Bool)),
      dict_find m.nodes name = some (specNodeStats l1) →
      (∀ p ∈ l2, 0 ≤ p.1) →
      dict_find ((l2.foldl (fun mm p => mm.record_node_execution name p.1 p.2) m).nodes) name
        = some (specNodeStats (l1 ++ l2)) := by
  intro l2
  induction l2 with
  | nil =>
    intro m l1 h _
    simpa using h
  | cons p t ih =>
    intro m l1 h hnn
    obtain ⟨d, s⟩ := p
    rw [List.foldl_cons]
    have hstep : dict_find ((m.record_node_execution name d s).nodes) name
        = some (specNodeStats (l1 ++ [(d, s)])) := by
      rw [record_node_execution_find, h]
      simp only [Option.getD_some]
      rw [specNodeStats_update l1 d s (hnn (d, s) (by simp))]
    have hrest := ih (m.record_node_execution name d s) (l1 ++ [(d, s)]) hstep
      (fun q hq => hnn q (by simp [hq]))
    simpa [List.append_assoc] using hrest

/-- C8: recording k >= 1 samples (d_i, s_i) with nonnegative durations for
a node name not yet tracked leaves that node with exactly the statistics
the claim predicts: count = k, success / failure split, total = sum of
d_i, avg = total / k, min / max = minimum / maximum of the d_i. -/
theorem record_node_execution_stats (m : MetricsCollector) (name : String)
    (l : List (ℚ × Bool)) (hne : l ≠ [])
    (hfresh : dict_find m.nodes name = none)
    (hnn : ∀ p ∈ l, 0 ≤ p.1) :
    dict_find ((l.foldl (fun mm p => mm.record_node_execution name p.1 p.2) m).nodes) name
      = some (specNodeStats l) ∧
    (specNodeStats l).count = l.length ∧
    (specNodeStats l).min_duration = (l.map Prod.fst).min? ∧
    some (specNodeStats l).max_duration = (l.map Prod.fst).max? ∧
    (specNodeStats l).avg_duration =
      (specNodeStats l).total_duration / ((specNodeStats l).count : ℚ) ∧
    (specNodeStats l).failure = l.length - (specNodeStats l).success := by
  refine ⟨?_, rfl, rfl, ?_, rfl, rfl⟩
  · cases l with
    | nil => exact absurd rfl hne
    | cons p t =>
      obtain ⟨d, s⟩ := p
      rw [List.foldl_cons]
      have hstep : dict_find ((m.record_node_execution name d s).nodes) name
          = some (specNodeStats [(d, s)]) := by
        rw [record_node_execution_find, hfresh]
        simp only [Option.getD_none]
        have h0 : NodeStats.update initNodeStats d s = specNodeStats [(d, s)] := by
          rw [← specNodeStats_nil]
          exact specNodeStats_update [] d s (hnn (d, s) (by simp))
        rw [h0]
      have hrest := record_node_foldl name t (m.record_node_execution name d s) [(d, s)] hstep
        (fun q hq => hnn q (by simp [hq]))
      simpa using hrest
  · cases l with
    | nil => exact absurd rfl hne
    | cons p t => rfl

/-- Witness for C8: durations 1.5, 2.0, 1.0 (all successful) for one node
on a fresh collector yield count = 3, avg = 1.5, min = 1.0, max = 2.0. -/
theorem record_node_execution_stats_witness :
    dict_find ((([((3 : ℚ)/2, true), (2, true), (1, true)]).foldl
        (fun mm p => mm.record_node_execution "retrieve" p.1 p.2)
        (MetricsCollector.init 0)).nodes) "retrieve"
      = some (specNodeStats [((3 : ℚ)/2, true), (2, true), (1, true)]) ∧
    specNodeStats [((3 : ℚ)/2, true), (2, true), (1, true)] =
      { count := 3, success := 3, failure := 0, total_duration := 9/2,
        avg_duration := 3/2, min_duration := some 1, max_duration := 2 } := by
  constructor
  · exact (record_node_execution_stats (MetricsCollector.init 0) "retrieve" _
      (by simp) rfl (by intro p hp; fin_cases hp <;> norm_num)).1
  · norm_num [specNodeStats, List.min?, List.max?, min_def, max_def]

/-- A successful dict lookup exhibits membership. -/
theorem dict_find_mem {β : Type} (l : List (String × β)) (k : String) (v : β)
    (h : dict_find l k = some v) : (k, v) ∈ l := by
  induction l with
  | nil => simp [dict_find] at h
  | cons p t ih =>
    obtain ⟨k1, v1⟩ := p
    by_cases hk : k1 = k
    · subst hk
      simp [dict_find] at h
      simp [h]
    · simp [dict_find, hk] at h
      exact List.mem_cons_of_mem _ (ih h)

/-- Membership after a dict assignment: the new pair or an old one. -/
theorem mem_dict_set {β : Type} (l : List (String × β)) (k : String) (v : β)
    (p : String × β) (h : p ∈ dict_set l k v) : p = (k, v) ∨ p ∈ l := by
  induction l with
  | nil =>
    simp [dict_set] at h
    simp [h]
  | cons q t ih =>
    obtain ⟨k1, v1⟩ := q
    by_cases hk : k1 = k
    · subst hk
      simp [dict_set] at h
      rcases h with h | h
      · exact Or.inl (by simp [h])
      · exact Or.inr (by simp [h])
    · simp [dict_set, hk] at h
      rcases h with h | h
      · exact Or.inr (by simp [h])
      · rcases ih h with h2 | h2
        · exact Or.inl h2
        · exact Or.inr (by simp [h2])

/-- C10: every metrics operation preserves the accounting invariants
requests.total = requests.success + requests.failure and, for every
tracked node, count = success + failure; the get_metrics snapshot
satisfies them too, and reset restores both sides to zero. -/
theorem metrics_invariants (m : MetricsCollector) (b hh s : Bool)
    (name op cat : String) (d dur now : ℚ) (h : MetricsInv m) :
    MetricsInv (m.increment_request b) ∧
    MetricsInv (m.record_node_execution name d s) ∧
    MetricsInv (m.record_latency op dur) ∧
    MetricsInv (m.record_error cat) ∧
    MetricsInv (m.record_cache_hit hh) ∧
    ((m.get_metrics now).requests.total =
      (m.get_metrics now).requests.success + (m.get_metrics now).requests.failure) ∧
    (∀ p ∈ (m.get_metrics now).nodes, p.2.count = p.2.success + p.2.failure) ∧
    MetricsInv (m.reset now) ∧
    (m.reset now).requests = ⟨0, 0, 0⟩ ∧
    (m.reset now).nodes = [] := by
  obtain ⟨hreq, hnodes⟩ := h
  refine ⟨?_, ?_, ?_, ?_, ?_, ?_, ?_, ?_, rfl, rfl⟩
  · constructor
    · cases b <;> simp [MetricsCollector.increment_request] <;> omega
    · cases b <;> simpa [MetricsCollector.increment_request] using hnodes
  · constructor
    · simpa [MetricsCollector.record_node_execution] using hreq
    · intro p hp
      have hp1 : p ∈ dict_set m.nodes name
          (((dict_find m.nodes name).getD initNodeStats).update d s) := by
        simpa [MetricsCollector.record_node_execution] using hp
      rcases mem_dict_set m.nodes name _ p hp1 with rfl | hp2
      · have hbase : ((dict_find m.nodes name).getD initNodeStats).count =
            ((dict_find m.nodes name).getD initNodeStats).success +
            ((dict_find m.nodes name).getD initNodeStats).failure := by
          cases hf : dict_find m.nodes name with
          | none => simp [initNodeStats]
          | some st => simpa using hnodes (name, st) (dict_find_mem m.nodes name st hf)
        cases s <;> simp [NodeStats.update] <;> omega
      · exact hnodes p hp2
  · exact ⟨by simpa [MetricsCollector.record_latency] using hreq,
      by simpa [MetricsCollector.record_latency] using hnodes⟩
  · exact ⟨by simpa [MetricsCollector.record_error] using hreq,
      by simpa [MetricsCollector.record_error] using hnodes⟩
  · constructor
    · cases hh <;> simpa [MetricsCollector.record_cache_hit] using hreq
    · cases hh <;> simpa [MetricsCollector.record_cache_hit] using hnodes
  · simpa [MetricsCollector.get_metrics] using hreq
  · simpa [MetricsCollector.get_metrics] using hnodes
  · exact ⟨rfl, by simp [MetricsCollector.reset, MetricsCollector.init]⟩

/-- Witness for C10 on a fresh collector: the invariants hold after a
request increment and after a node record, and reset zeroes the request
counters. -/
theorem metrics_invariants_witness :
    MetricsInv ((MetricsCollector.init 0).increment_request true) ∧
    MetricsInv ((MetricsCollector.init 0).record_node_execution "n" 2 true) ∧
    ((MetricsCollector.init 0).reset 5).requests = ⟨0, 0, 0⟩ := by
  have h := metrics_invariants (MetricsCollector.init 0) true true true "n" "op" "cat" 2 3 5
    ⟨rfl, by simp [MetricsCollector.init]⟩
  exact ⟨h.1, h.2.1, h.2.2.2.2.2.2.2.2.1⟩

/-- Every reachable breaker satisfies CBInv: outside CLOSED the failure
count has reached the threshold. -/
theorem CBReachable_inv (cb : CircuitBreaker) (h : CBReachable cb) : CBInv cb := by
  induction h with
  | init ft tmo ex =>
    intro hst
    exact absurd rfl hst
  | step cb now tFail op hr ih => exact CBInv_call cb now tFail op ih
  | reset cb hr ih =>
    intro hst
    exact absurd rfl hst

/-- Whenever the gate admits the call, the operation is invoked. -/
theorem CircuitBreaker.call_invoked (cb cb1 : CircuitBreaker) (now tFail : ℚ)
    (op : Except PyError α) (hg : cb.gate now = Except.ok cb1) :
    (CircuitBreaker.call cb now tFail op).invoked = true := by
  unfold CircuitBreaker.call
  rw [hg]
  cases op with
  | ok v => by_cases h : cb1.state = CBState.HALF_OPEN <;> simp [h]
  | error e =>
    by_cases h1 : e.ty.issubclass cb1.expected_exception = true
    · by_cases h2 : cb1.failure_threshold ≤ cb1.failure_count + 1 <;> simp [h1, h2]
    · simp [h1]

/-- C5: for every reachable breaker in HALF_OPEN state, a trial failure of
the expected exception class puts the breaker back in OPEN state, records
the failure time, and re-raises the error. The transition relies on the
reachability invariant failure_count >= failure_threshold. -/
theorem cb_halfopen_failure_reopens {α : Type} (cb : CircuitBreaker)
    (now tFail : ℚ) (e : PyError) (hre : CBReachable cb)
    (hst : cb.state = CBState.HALF_OPEN)
    (hm : e.ty.issubclass cb.expected_exception = true) :
    (CircuitBreaker.call cb now tFail (Except.error e : Except PyError α)).cb.state = CBState.OPEN ∧
    (CircuitBreaker.call cb now tFail (Except.error e : Except PyError α)).cb.last_failure_time = some tFail ∧
    (CircuitBreaker.call cb now tFail (Except.error e : Except PyError α)).result = Except.error e := by
  have hinv := CBReachable_inv cb hre
  have hcnt : cb.failure_threshold ≤ cb.failure_count := hinv (by rw [hst]; simp)
  have hgate : cb.gate now = Except.ok cb := by
    unfold CircuitBreaker.gate
    rw [hst]
    simp
  unfold CircuitBreaker.call
  rw [hgate]
  have hthr : cb.failure_threshold ≤ cb.failure_count + 1 := Nat.le_succ_of_le hcnt
  simp [hm, hthr]

/-- Witness for C5 at a reachable HALF_OPEN breaker with threshold 1
(reached via a counted ValueError, then an admitted trial failing with an
uncounted TypeError, which leaves the breaker in HALF_OPEN). -/
theorem cb_halfopen_failure_reopens_witness :
    (CircuitBreaker.call (CircuitBreaker.mk 1 60 ExcType.valueError 1 (some 0) CBState.HALF_OPEN)
      100 100 (Except.error (PyError.simple ExcType.valueError "boom") : Except PyError Unit)).cb.state = CBState.OPEN ∧
    (CircuitBreaker.call (CircuitBreaker.mk 1 60 ExcType.valueError 1 (some 0) CBState.HALF_OPEN)
      100 100 (Except.error (PyError.simple ExcType.valueError "boom") : Except PyError Unit)).cb.last_failure_time = some 100 ∧
    (CircuitBreaker.call (CircuitBreaker.mk 1 60 ExcType.valueError 1 (some 0) CBState.HALF_OPEN)
      100 100 (Except.error (PyError.simple ExcType.valueError "boom") : Except PyError Unit)).result =
      Except.error (PyError.simple ExcType.valueError "boom") := by
  have hreach : CBReachable (CircuitBreaker.mk 1 60 ExcType.valueError 1 (some 0) CBState.HALF_OPEN) := by
    have s0 := CBReachable.init 1 60 ExcType.valueError
    have s1 := CBReachable.step (CircuitBreaker.init 1 60 ExcType.valueError) 0 0
      (Except.error (PyError.simple ExcType.valueError "x")) s0
    have e1 : (CircuitBreaker.call (CircuitBreaker.init 1 60 ExcType.valueError) 0 0
        (Except.error (PyError.simple ExcType.valueError "x") : Except PyError Unit)).cb
        = CircuitBreaker.mk 1 60 ExcType.valueError 1 (some 0) CBState.OPEN := by
      simp [CircuitBreaker.call, CircuitBreaker.gate, CircuitBreaker.init,
        PyError.ty, ExcType.issubclass]
    rw [e1] at s1
    have s2 := CBReachable.step (CircuitBreaker.mk 1 60 ExcType.valueError 1 (some 0) CBState.OPEN)
      100 100 (Except.error (PyError.simple ExcType.typeError "y")) s1
    have e2 : (CircuitBreaker.call (CircuitBreaker.mk 1 60 ExcType.valueError 1 (some 0) CBState.OPEN)
        100 100 (Except.error (PyError.simple ExcType.typeError "y") : Except PyError Unit)).cb
        = CircuitBreaker.mk 1 60 ExcType.valueError 1 (some 0) CBState.HALF_OPEN := by
      simp [CircuitBreaker.call, CircuitBreaker.gate, PyError.ty, ExcType.issubclass]
      norm_num
    rw [e2] at s2
    exact s2
  exact cb_halfopen_failure_reopens
    (CircuitBreaker.mk 1 60 ExcType.valueError 1 (some 0) CBState.HALF_OPEN)
    100 100 (PyError.simple ExcType.valueError "boom") hreach rfl rfl

/-- C2 counterexample: with the breaker OPEN inside the timeout window the
call is rejected without invoking the operation, but the rejection error
is a plain Exception - the very class of a failure the wrapped operation
itself can raise (here one raising Exception "boom") - not a distinct
CircuitOpen error type. -/
theorem cb_rejection_not_distinct_counterexample :
    (CircuitBreaker.call (CircuitBreaker.mk 5 60 ExcType.base 5 (some 0) CBState.OPEN) 10 10
      (Except.error (PyError.simple ExcType.base "boom") : Except PyError Nat)).invoked = false ∧
    (CircuitBreaker.call (CircuitBreaker.mk 5 60 ExcType.base 5 (some 0) CBState.OPEN) 10 10
      (Except.error (PyError.simple ExcType.base "boom") : Except PyError Nat)).result =
      Except.error (PyError.simple ExcType.base "Circuit breaker is OPEN") ∧
    (PyError.simple ExcType.base "Circuit breaker is OPEN").ty =
      (PyError.simple ExcType.base "boom").ty := by
  refine ⟨?_, ?_, rfl⟩ <;>
    norm_num [CircuitBreaker.call, CircuitBreaker.gate]

/-- C2 (amended): for every breaker in OPEN state with recorded failure
time t: if now - t < timeout, the call is rejected without invoking the
operation by raising a plain Exception with message
"Circuit breaker is OPEN" (not a distinct error type) and the breaker is
unchanged; if now - t >= timeout, the gate moves the breaker to HALF_OPEN
and the operation is invoked once as the trial request. -/
theorem cb_open_gating {α : Type} (cb : CircuitBreaker) (now tFail t : ℚ)
    (op : Except PyError α) (hst : cb.state = CBState.OPEN)
    (hlft : cb.last_failure_time = some t) :
    (now - t < cb.timeout →
      (CircuitBreaker.call cb now tFail op).invoked = false ∧
      (CircuitBreaker.call cb now tFail op).result =
        Except.error (PyError.simple ExcType.base "Circuit breaker is OPEN") ∧
      (CircuitBreaker.call cb now tFail op).cb = cb) ∧
    (cb.timeout ≤ now - t →
      cb.gate now = Except.ok { cb with state := CBState.HALF_OPEN } ∧
      (CircuitBreaker.call cb now tFail op).invoked = true) := by
  constructor
  · intro hlt
    have hgate : cb.gate now =
        Except.error (PyError.simple ExcType.base "Circuit breaker is OPEN") := by
      unfold CircuitBreaker.gate
      rw [hst, hlft]
      simp [not_le.mpr hlt]
    unfold CircuitBreaker.call
    rw [hgate]
    simp
  · intro hge
    have hgate : cb.gate now = Except.ok { cb with state := CBState.HALF_OPEN } := by
      unfold CircuitBreaker.gate
      rw [hst, hlft]
      simp [ge_iff_le, hge]
    exact ⟨hgate, CircuitBreaker.call_invoked cb _ now tFail op hgate⟩

/-- Witness for C2 (amended) at a breaker with timeout 60 that last failed
at time 0: a call at time 10 is rejected without invocation, a call at
time 100 is admitted and invokes the operation. -/
theorem cb_open_gating_witness :
    ((10 : ℚ) - 0 < 60 ∧
      (CircuitBreaker.call (CircuitBreaker.mk 5 60 ExcType.valueError 5 (some 0) CBState.OPEN)
        10 10 (Except.ok 7 : Except PyError Nat)).invoked = false) ∧
    ((60 : ℚ) ≤ 100 - 0 ∧
      (CircuitBreaker.call (CircuitBreaker.mk 5 60 ExcType.valueError 5 (some 0) CBState.OPEN)
        100 100 (Except.ok 7 : Except PyError Nat)).invoked = true) := by
  have h1 := cb_open_gating (CircuitBreaker.mk 5 60 ExcType.valueError 5 (some 0) CBState.OPEN)
    10 10 0 (Except.ok 7 : Except PyError Nat) rfl rfl
  have h2 := cb_open_gating (CircuitBreaker.mk 5 60 ExcType.valueError 5 (some 0) CBState.OPEN)
    100 100 0 (Except.ok 7 : Except PyError Nat) rfl rfl
  exact ⟨⟨by norm_num, (h1.1 (by norm_num)).1⟩, ⟨by norm_num, (h2.2 (by norm_num)).2⟩⟩

/-- Witness for C4: retry configured for ValueError only, the operation
raises a TypeError at the first attempt, which propagates unchanged with
one invocation and no sleep. -/
theorem retry_nonretryable_propagates_witness :
    retry_with_backoff 3 1 2 [ExcType.valueError] "f"
      (fun _ => (Except.error (PyError.simple ExcType.typeError "boom") : Except PyError Nat)) =
      { result := Except.error (PyError.simple ExcType.typeError "boom"),
        invocations := 0 + 1,
        sleeps := (List.range 0).map (fun i => (1 : ℚ) * 2 ^ i) } := by
  exact retry_nonretryable_propagates 3 0 1 2 [ExcType.valueError] "f"
    (fun _ => (Except.error (PyError.simple ExcType.typeError "boom") : Except PyError Nat))
    (PyError.simple ExcType.typeError "boom") (by omega)
    (fun k hk => absurd hk (Nat.not_lt_zero k)) rfl (by decide)
